import Mathlib

/-!
Shallow embedding of the core algorithmic logic of the ef-coach-scale skill:
the focus-session gap finder and session proposer (focus-session.py) and the
habit streak tracker with gentle reminders (streak-tracker.py).

Conventions of the embedding:
- instants are integers (seconds); calendar dates are integers (days);
  `timedelta(days=1)` is `1` on dates, `timedelta(hours=1)` is `3600` on
  instants;
- the float minute durations computed by `total_seconds() / 60` are modelled
  as exact rationals; Python `int(...)` truncation toward zero is `ratTrunc`;
- the sqlite store is a record of two tables (lists of rows); `SELECT ...
  WHERE id = ?` with `fetchone` is `List.find?`, `UPDATE ... WHERE id = ?`
  maps over matching rows, `INSERT` appends;
- the subprocess/JSON boundary of `get_calendar_events` is an explicit
  outcome value: success carries the parsed items, the three failure modes
  (non-zero exit, timeout, parse failure) are distinguished constructors.
-/

namespace EFCoach

/-- A busy calendar interval as built by `get_calendar_events`:
start/end instants, summary and description strings. -/
structure BusyInterval where
  start : Int
  stop : Int
  summary : String
  description : String
deriving DecidableEq, Repr

/-- An opportunity dictionary as built by `find_focus_opportunities`:
start/end instants, float duration in minutes (modelled as a rational),
and the optional `after_event` / `before_event` labels (absent keys are
`none`; `dict.get` on an absent key yields `None`). -/
structure Opportunity where
  start : Int
  stop : Int
  duration : ℚ
  after_event : Option String
  before_event : Option String
deriving DecidableEq, Repr

/-- The proposal dictionary built by `propose_focus_session`. -/
structure SessionProposal where
  start : Int
  stop : Int
  duration_minutes : Int
  suggested_timer : String
  task_name : String
  energy : Option Int
  context_after : Option String
  context_before : Option String
deriving DecidableEq, Repr

/-- Python `int(q)` on a float/number: truncation toward zero. -/
def ratTrunc (q : ℚ) : Int :=
  if 0 ≤ q then Int.floor q else Int.ceil q

/-- One optional ISO time field of a raw calendar item: the key can be
absent (or empty), present but failing `datetime.fromisoformat`, or parse
to an instant. -/
inductive TimeField where
  | absent
  | malformed
  | parsed (t : Int)
deriving DecidableEq, Repr

/-- A raw item of the provider's JSON: optional start/end time fields and
optional summary/description strings. -/
structure RawEvent where
  start : TimeField
  stop : TimeField
  summary : Option String
  description : Option String
deriving DecidableEq, Repr

/-- Outcome of the `gog calendar events` subprocess call: parsed items on
success, or one of the three failure modes absorbed by
`get_calendar_events`. -/
inductive CalendarOutcome where
  | ok (items : List RawEvent)
  | nonzeroExit
  | timeout
  | parseFailure
deriving DecidableEq, Repr

/-- The per-item body of the `for event in events.get("items", [])` loop of
`get_calendar_events`: skip when the start field is absent, skip when either
field is malformed (the `except (ValueError, TypeError): continue`), default
a missing end to start + 1 hour, and keep the event only when
`start <= future and end > now`. -/
def filterEvent (now future : Int) (e : RawEvent) : Option BusyInterval :=
  match e.start with
  | .absent => none
  | .malformed => none
  | .parsed s =>
    match e.stop with
    | .malformed => none
    | .absent =>
      if s ≤ future ∧ s + 3600 > now then
        some ⟨s, s + 3600, e.summary.getD "No title", e.description.getD ""⟩
      else none
    | .parsed en =>
      if s ≤ future ∧ en > now then
        some ⟨s, en, e.summary.getD "No title", e.description.getD ""⟩
      else none

/-- Insert an interval into a list sorted ascending by start. -/
def insertSortedByStart (e : BusyInterval) : List BusyInterval → List BusyInterval
  | [] => [e]
  | f :: rest =>
    if e.start ≤ f.start then e :: f :: rest else f :: insertSortedByStart e rest

/-- `sorted(filtered_events, key=lambda x: x["start"])`. -/
def sortByStart (l : List BusyInterval) : List BusyInterval :=
  l.foldr insertSortedByStart []

/-- `FocusSession.get_calendar_events`: on success, filter the raw items to
the window `[.., now + hours_ahead]` intersected with the future and sort by
start; on non-zero exit status the function returns `[]`, and the timeout
and parse-failure exceptions are caught by the blanket handler which also
returns `[]`. -/
def get_calendar_events (outcome : CalendarOutcome) (now : Int) (hours_ahead : Int) :
    List BusyInterval :=
  match outcome with
  | .ok items =>
    let future := now + hours_ahead * 3600
    sortByStart (items.filterMap (filterEvent now future))
  | .nonzeroExit => []
  | .timeout => []
  | .parseFailure => []

/-- Step 1 of `find_focus_opportunities`: the opportunity from `now` to the
first event, emitted when the first start is after `now` and the duration in
minutes reaches `min_minutes`; it carries `before_event` only. -/
def leadingGap (events : List BusyInterval) (now : Int) (min_minutes : Int) :
    List Opportunity :=
  match events with
  | [] => []
  | e :: _ =>
    if e.start > now then
      if ((e.start - now : Int) : ℚ) / 60 ≥ (min_minutes : ℚ) then
        [⟨now, e.start, ((e.start - now : Int) : ℚ) / 60, none, some e.summary⟩]
      else []
    else []

/-- Step 2 of `find_focus_opportunities`: for each adjacent pair of events,
the gap from the first's end to the second's start, emitted when its duration
in minutes reaches `min_minutes`; it carries both labels. -/
def interiorGaps (min_minutes : Int) : List BusyInterval → List Opportunity
  | e1 :: e2 :: rest =>
    (if ((e2.start - e1.stop : Int) : ℚ) / 60 ≥ (min_minutes : ℚ) then
      [⟨e1.stop, e2.start, ((e2.start - e1.stop : Int) : ℚ) / 60,
        some e1.summary, some e2.summary⟩]
    else []) ++ interiorGaps min_minutes (e2 :: rest)
  | _ => []

/-- `FocusSession.find_focus_opportunities` on an already-fetched event
list: the leading gap followed by the interior gaps. -/
def find_focus_opportunities (events : List BusyInterval) (now : Int)
    (min_minutes : Int) : List Opportunity :=
  leadingGap events now min_minutes ++ interiorGaps min_minutes events

/-- `find_focus_opportunities` as called in the source: on the events
fetched by `get_calendar_events` with `hours_ahead = 12`. -/
def find_focus_opportunities_src (outcome : CalendarOutcome) (now : Int)
    (min_minutes : Int) : List Opportunity :=
  find_focus_opportunities (get_calendar_events outcome now 12) now min_minutes

/-- `FocusSession.propose_focus_session`: truncate the float duration to an
integer, pick the suggested timer by the tiered policy (first match wins),
and assemble the proposal record. -/
def propose_focus_session (opportunity : Opportunity) (task_name : Option String)
    (energy : Option Int) : SessionProposal :=
  { start := opportunity.start
    stop := opportunity.stop
    duration_minutes := ratTrunc opportunity.duration
    suggested_timer :=
      if ratTrunc opportunity.duration ≥ 240 then "120 min (deep work block)"
      else if ratTrunc opportunity.duration ≥ 180 then "90 min (3 pomodoros + long break)"
      else if ratTrunc opportunity.duration ≥ 120 then "90 min (focus block)"
      else toString (ratTrunc opportunity.duration - 15) ++ " min (focus session)"
    task_name := task_name.getD "TBD"
    energy := energy
    context_after := opportunity.after_event
    context_before := opportunity.before_event }

/-- A row of the `habits` table. `goal_frequency` is the stored string
(`"daily"`, `"weekly"`, `"monthly"`, or anything else the caller inserted);
`last_completed` is the stored ISO date, modelled as a parsed day number, or
`none` for NULL. -/
structure Habit where
  id : Nat
  name : String
  description : String
  streak_count : Int
  last_completed : Option Int
  goal_frequency : String
  active : Bool
deriving DecidableEq, Repr

/-- A row of the append-only `habit_log` table. -/
structure HabitLogEntry where
  habit_id : Nat
  timestamp : Int
  notes : String
deriving DecidableEq, Repr

/-- The persisted store consumed by the streak tracker: the `habits` and
`habit_log` tables. -/
structure Store where
  habits : List Habit
  habit_log : List HabitLogEntry
deriving DecidableEq, Repr

/-- `SELECT ... FROM habits WHERE id = ?` with `fetchone`. -/
def findHabit (s : Store) (habit_id : Nat) : Option Habit :=
  s.habits.find? (fun h => h.id == habit_id)

/-- `UPDATE habits SET ... WHERE id = ?`: apply the row update to every row
with the given id. -/
def updateHabitRow (habits : List Habit) (habit_id : Nat) (f : Habit → Habit) :
    List Habit :=
  habits.map (fun h => if h.id == habit_id then f h else h)

/-- `StreakTracker.complete_habit` on the store, with the ambient
`date.today()` passed explicitly. Returns the success flag and the new
store. A missing habit fails with no mutation; a daily habit already
completed today is rejected before the log insert; otherwise the completion
is logged and then the habit row is updated per cadence: daily continues,
resets, or seeds the streak (no branch fires when the last completion is in
the future), weekly and monthly only refresh `last_completed`. -/
def complete_habit (s : Store) (habit_id : Nat) (today : Int) (notes : String) :
    Bool × Store :=
  match findHabit s habit_id with
  | none => (false, s)
  | some h =>
    if h.goal_frequency = "daily" ∧ h.last_completed = some today then
      (false, s)
    else
      let s1 : Store := { s with habit_log := s.habit_log ++ [⟨habit_id, today, notes⟩] }
      let continueStreak : Habit → Habit := fun hh =>
        { hh with streak_count := hh.streak_count + 1, last_completed := some today }
      let resetStreak : Habit → Habit := fun hh =>
        { hh with streak_count := 1, last_completed := some today }
      let refreshOnly : Habit → Habit := fun hh =>
        { hh with last_completed := some today }
      if h.goal_frequency = "daily" then
        match h.last_completed with
        | some last =>
          if last = today - 1 then
            (true, { s1 with habits := updateHabitRow s1.habits habit_id continueStreak })
          else if last < today - 1 then
            (true, { s1 with habits := updateHabitRow s1.habits habit_id resetStreak })
          else
            (true, s1)
        | none =>
          (true, { s1 with habits := updateHabitRow s1.habits habit_id resetStreak })
      else if h.goal_frequency = "weekly" then
        (true, { s1 with habits := updateHabitRow s1.habits habit_id refreshOnly })
      else if h.goal_frequency = "monthly" then
        (true, { s1 with habits := updateHabitRow s1.habits habit_id refreshOnly })
      else
        (true, s1)

/-- The message selection of `StreakTracker.get_habit_reminders`: the
if/elif chain on `days_since` (and the streak count at `days_since = 1`). -/
def reminder_message (name : String) (streak : Int) (days_since : Option Int) :
    String :=
  match days_since with
  | none => "Ready to start \x27" ++ name ++ "\x27? First step is the hardest!"
  | some d =>
    if d = 1 then
      if streak > 1 then
        "\x27" ++ name ++ "\x27 - keep that " ++ toString streak ++ "-day streak going! 🔥"
      else
        "Time for \x27" ++ name ++ "\x27 - you\x27ve got this!"
    else if d = 2 then
      "\x27" ++ name ++ "\x27 - no worries, just pick it back up when ready."
    else if d ≤ 7 then
      "\x27" ++ name ++ "\x27 - when you\x27re ready to jump back in."
    else
      "\x27" ++ name ++ "\x27 - waiting for you when inspiration strikes."

/-- A reminder dictionary produced by `get_habit_reminders`. -/
structure Reminder where
  habit_id : Nat
  name : String
  streak_count : Int
  days_since : Option Int
  message : String
deriving DecidableEq, Repr

/-- `StreakTracker.get_habit_reminders`: over the active daily habits, skip
those completed today, compute `days_since` (NULL-propagating), and build
the reminder with the tiered message. -/
def get_habit_reminders (s : Store) (today : Int) : List Reminder :=
  (s.habits.filter (fun h => h.active ∧ h.goal_frequency = "daily")).filterMap
    (fun h =>
      if h.last_completed = some today then none
      else
        let days_since : Option Int := h.last_completed.map (fun last => today - last)
        some ⟨h.id, h.name, h.streak_count, days_since,
              reminder_message h.name h.streak_count days_since⟩)

end EFCoach


namespace EFCoach

/-- Looking up a habit id after an `UPDATE ... WHERE id = ?` yields the updated
row, provided the update does not change the id. -/
theorem find?_updateHabitRow (habits : List Habit) (habit_id : Nat)
    (f : Habit → Habit) (h : Habit)
    (hid : ∀ hh : Habit, (f hh).id = hh.id)
    (hf : habits.find? (fun x => x.id == habit_id) = some h) :
    (updateHabitRow habits habit_id f).find? (fun x => x.id == habit_id) = some (f h) := by
  induction habits with
  | nil => simp at hf
  | cons a as ih =>
    by_cases ha : a.id = habit_id
    · have hfa : a = h := by simpa [List.find?_cons, ha] using hf
      subst hfa
      simp [updateHabitRow, List.find?_cons, ha, hid a]
    · have hf2 : as.find? (fun x => x.id == habit_id) = some h := by
        simpa [List.find?_cons, ha] using hf
      have hrec := ih hf2
      simpa [updateHabitRow, List.find?_cons, ha] using hrec

/-- A daily habit already completed today is rejected with no store mutation. -/
theorem complete_habit_reject (s : Store) (habit_id : Nat) (today : Int)
    (notes : String) (h : Habit)
    (hfind : findHabit s habit_id = some h)
    (hdaily : h.goal_frequency = "daily")
    (hlast : h.last_completed = some today) :
    complete_habit s habit_id today notes = (false, s) := by
  simp [complete_habit, hfind, hdaily, hlast]

/-- First completion of a daily habit: log appended, streak seeded to 1. -/
theorem complete_habit_daily_none (s : Store) (habit_id : Nat) (today : Int)
    (notes : String) (h : Habit)
    (hfind : findHabit s habit_id = some h)
    (hdaily : h.goal_frequency = "daily")
    (hlast : h.last_completed = none) :
    complete_habit s habit_id today notes =
      (true, { habits := updateHabitRow s.habits habit_id (fun hh => { hh with streak_count := 1, last_completed := some today }),
               habit_log := s.habit_log ++ [⟨habit_id, today, notes⟩] }) := by
  simp [complete_habit, hfind, hdaily, hlast]

/-- Daily completion the day after the last one: log appended, streak incremented. -/
theorem complete_habit_daily_yesterday (s : Store) (habit_id : Nat) (today : Int)
    (notes : String) (h : Habit)
    (hfind : findHabit s habit_id = some h)
    (hdaily : h.goal_frequency = "daily")
    (hlast : h.last_completed = some (today - 1)) :
    complete_habit s habit_id today notes =
      (true, { habits := updateHabitRow s.habits habit_id (fun hh => { hh with streak_count := hh.streak_count + 1, last_completed := some today }),
               habit_log := s.habit_log ++ [⟨habit_id, today, notes⟩] }) := by
  have hne : (today - 1 : Int) ≠ today := by omega
  simp [complete_habit, hfind, hdaily, hlast, hne]

/-- Daily completion after a missed day: log appended, streak reset to 1. -/
theorem complete_habit_daily_reset (s : Store) (habit_id : Nat) (today : Int)
    (notes : String) (h : Habit) (d : Int)
    (hfind : findHabit s habit_id = some h)
    (hdaily : h.goal_frequency = "daily")
    (hlast : h.last_completed = some d)
    (hd : d < today - 1) :
    complete_habit s habit_id today notes =
      (true, { habits := updateHabitRow s.habits habit_id (fun hh => { hh with streak_count := 1, last_completed := some today }),
               habit_log := s.habit_log ++ [⟨habit_id, today, notes⟩] }) := by
  have hne : d ≠ today := by omega
  have hne1 : d ≠ today - 1 := by omega
  simp [complete_habit, hfind, hdaily, hlast, hne, hne1, hd]

/-- Daily completion when the stored last completion is in the future: the log
entry is inserted and the function reports success, but no UPDATE branch fires. -/
theorem complete_habit_daily_future (s : Store) (habit_id : Nat) (today : Int)
    (notes : String) (h : Habit) (d : Int)
    (hfind : findHabit s habit_id = some h)
    (hdaily : h.goal_frequency = "daily")
    (hlast : h.last_completed = some d)
    (hd : today < d) :
    complete_habit s habit_id today notes =
      (true, { s with habit_log := s.habit_log ++ [⟨habit_id, today, notes⟩] }) := by
  have hne : d ≠ today := by omega
  have hne1 : d ≠ today - 1 := by omega
  have hnl : ¬ (d < today - 1) := by omega
  simp [complete_habit, hfind, hdaily, hlast, hne, hne1, hnl]

/-- Weekly or monthly completion: log appended, only last_completed refreshed. -/
theorem complete_habit_refresh (s : Store) (habit_id : Nat) (today : Int)
    (notes : String) (h : Habit)
    (hfind : findHabit s habit_id = some h)
    (hfreq : h.goal_frequency = "weekly" ∨ h.goal_frequency = "monthly") :
    complete_habit s habit_id today notes =
      (true, { habits := updateHabitRow s.habits habit_id (fun hh => { hh with last_completed := some today }),
               habit_log := s.habit_log ++ [⟨habit_id, today, notes⟩] }) := by
  rcases hfreq with hw | hm
  · simp [complete_habit, hfind, hw]
  · simp [complete_habit, hfind, hm]

end EFCoach

namespace EFCoach

/-- C1: for every daily-cadence habit in the store, a completion dated today
follows the daily streak rule: null last_completed seeds streak 1; last_completed
equal to yesterday increments the streak; last_completed strictly before
yesterday resets the streak to 1 — in each case last_completed becomes today and
the operation reports success. -/
theorem C1_daily_streak_rule (s : Store) (habit_id : Nat) (today : Int)
    (notes : String) (h : Habit)
    (hfind : findHabit s habit_id = some h)
    (hdaily : h.goal_frequency = "daily") :
    (h.last_completed = none →
      (complete_habit s habit_id today notes).1 = true ∧
      findHabit (complete_habit s habit_id today notes).2 habit_id =
        some { h with streak_count := 1, last_completed := some today }) ∧
    (h.last_completed = some (today - 1) →
      (complete_habit s habit_id today notes).1 = true ∧
      findHabit (complete_habit s habit_id today notes).2 habit_id =
        some { h with streak_count := h.streak_count + 1, last_completed := some today }) ∧
    (∀ d : Int, h.last_completed = some d → d < today - 1 →
      (complete_habit s habit_id today notes).1 = true ∧
      findHabit (complete_habit s habit_id today notes).2 habit_id =
        some { h with streak_count := 1, last_completed := some today }) := by
  have hfind0 : s.habits.find? (fun x => x.id == habit_id) = some h := hfind
  refine ⟨?_, ?_, ?_⟩
  · intro hlast
    rw [complete_habit_daily_none s habit_id today notes h hfind hdaily hlast]
    exact ⟨rfl, find?_updateHabitRow s.habits habit_id _ h (fun hh => rfl) hfind0⟩
  · intro hlast
    rw [complete_habit_daily_yesterday s habit_id today notes h hfind hdaily hlast]
    exact ⟨rfl, find?_updateHabitRow s.habits habit_id _ h (fun hh => rfl) hfind0⟩
  · intro d hlast hd
    rw [complete_habit_daily_reset s habit_id today notes h d hfind hdaily hlast hd]
    exact ⟨rfl, find?_updateHabitRow s.habits habit_id _ h (fun hh => rfl) hfind0⟩

/-- C6: for every weekly- or monthly-cadence habit in the store, any completion
is accepted regardless of the last completion: a log entry is appended,
last_completed is set to today, and the habit row is otherwise unchanged (the
streak count is neither incremented nor reset). -/
theorem C6_weekly_monthly_refresh (s : Store) (habit_id : Nat) (today : Int)
    (notes : String) (h : Habit)
    (hfind : findHabit s habit_id = some h)
    (hfreq : h.goal_frequency = "weekly" ∨ h.goal_frequency = "monthly") :
    (complete_habit s habit_id today notes).1 = true ∧
    (complete_habit s habit_id today notes).2.habit_log =
      s.habit_log ++ [⟨habit_id, today, notes⟩] ∧
    findHabit (complete_habit s habit_id today notes).2 habit_id =
      some { h with last_completed := some today } := by
  have hfind0 : s.habits.find? (fun x => x.id == habit_id) = some h := hfind
  rw [complete_habit_refresh s habit_id today notes h hfind hfreq]
  exact ⟨rfl, rfl, find?_updateHabitRow s.habits habit_id _ h (fun hh => rfl) hfind0⟩

/-- C10: for every daily-cadence habit whose stored last completion is strictly
after today, a completion dated today is accepted and reported as success and a
log entry is appended, yet the habits table is left entirely unchanged: no
branch of the daily update covers a future last-completion date. -/
theorem C10_future_last_completed (s : Store) (habit_id : Nat) (today : Int)
    (notes : String) (h : Habit) (d : Int)
    (hfind : findHabit s habit_id = some h)
    (hdaily : h.goal_frequency = "daily")
    (hlast : h.last_completed = some d)
    (hfut : today < d) :
    (complete_habit s habit_id today notes).1 = true ∧
    (complete_habit s habit_id today notes).2.habits = s.habits ∧
    (complete_habit s habit_id today notes).2.habit_log =
      s.habit_log ++ [⟨habit_id, today, notes⟩] := by
  rw [complete_habit_daily_future s habit_id today notes h d hfind hdaily hlast hfut]
  exact ⟨rfl, rfl, rfl⟩

/-- C3: a daily habit whose last_completed equals today rejects the completion:
failure is reported and the store (log included) is unchanged; repeating the
completion is rejected again. Moreover, starting from any daily habit not yet
completed today (never completed, or last completed before today), the first
completion succeeds and appends exactly one log entry, and every repeat on the
same day is rejected leaving the store as after the first completion. -/
theorem C3_duplicate_same_day_rejected (s : Store) (habit_id : Nat) (today : Int)
    (n1 n2 : String) (h : Habit)
    (hfind : findHabit s habit_id = some h)
    (hdaily : h.goal_frequency = "daily")
    (hlast : h.last_completed = some today) :
    complete_habit s habit_id today n1 = (false, s) ∧
    complete_habit (complete_habit s habit_id today n1).2 habit_id today n2 = (false, s) ∧
    (∀ (s0 : Store) (h0 : Habit), findHabit s0 habit_id = some h0 →
      h0.goal_frequency = "daily" →
      (h0.last_completed = none ∨ ∃ d : Int, h0.last_completed = some d ∧ d < today) →
      (complete_habit s0 habit_id today n1).1 = true ∧
      (complete_habit s0 habit_id today n1).2.habit_log.length = s0.habit_log.length + 1 ∧
      complete_habit (complete_habit s0 habit_id today n1).2 habit_id today n2 =
        (false, (complete_habit s0 habit_id today n1).2)) := by
  have h1 : complete_habit s habit_id today n1 = (false, s) :=
    complete_habit_reject s habit_id today n1 h hfind hdaily hlast
  refine ⟨h1, ?_, ?_⟩
  · rw [h1]
    exact complete_habit_reject s habit_id today n2 h hfind hdaily hlast
  · intro s0 h0 hfind0 hdaily0 hcase
    have hfind0' : s0.habits.find? (fun x => x.id == habit_id) = some h0 := hfind0
    rcases hcase with hnone | ⟨d, hsome, hd⟩
    · rw [complete_habit_daily_none s0 habit_id today n1 h0 hfind0 hdaily0 hnone]
      refine ⟨rfl, by simp, ?_⟩
      have hfh : findHabit
          ({ habits := updateHabitRow s0.habits habit_id (fun hh => { hh with streak_count := 1, last_completed := some today }),
             habit_log := s0.habit_log ++ [⟨habit_id, today, n1⟩] } : Store) habit_id =
          some { h0 with streak_count := 1, last_completed := some today } :=
        find?_updateHabitRow s0.habits habit_id _ h0 (fun hh => rfl) hfind0'
      exact complete_habit_reject _ habit_id today n2 _ hfh hdaily0 rfl
    · rcases eq_or_lt_of_le (by omega : d ≤ today - 1) with heq | hlt
      · subst heq
        rw [complete_habit_daily_yesterday s0 habit_id today n1 h0 hfind0 hdaily0 hsome]
        refine ⟨rfl, by simp, ?_⟩
        have hfh : findHabit
            ({ habits := updateHabitRow s0.habits habit_id (fun hh => { hh with streak_count := hh.streak_count + 1, last_completed := some today }),
               habit_log := s0.habit_log ++ [⟨habit_id, today, n1⟩] } : Store) habit_id =
            some { h0 with streak_count := h0.streak_count + 1, last_completed := some today } :=
          find?_updateHabitRow s0.habits habit_id _ h0 (fun hh => rfl) hfind0'
        exact complete_habit_reject _ habit_id today n2 _ hfh hdaily0 rfl
      · rw [complete_habit_daily_reset s0 habit_id today n1 h0 d hfind0 hdaily0 hsome hlt]
        refine ⟨rfl, by simp, ?_⟩
        have hfh : findHabit
            ({ habits := updateHabitRow s0.habits habit_id (fun hh => { hh with streak_count := 1, last_completed := some today }),
               habit_log := s0.habit_log ++ [⟨habit_id, today, n1⟩] } : Store) habit_id =
            some { h0 with streak_count := 1, last_completed := some today } :=
          find?_updateHabitRow s0.habits habit_id _ h0 (fun hh => rfl) hfind0'
        exact complete_habit_reject _ habit_id today n2 _ hfh hdaily0 rfl

end EFCoach

namespace EFCoach

/-- Witness for C1 at a concrete store: habit last completed yesterday with
streak 4 moves to streak 5, last_completed today. -/
theorem C1_witness :
    (complete_habit ⟨[⟨1, "run", "", 4, some 99, "daily", true⟩], []⟩ 1 100 "").1 = true ∧
    findHabit (complete_habit ⟨[⟨1, "run", "", 4, some 99, "daily", true⟩], []⟩ 1 100 "").2 1 =
      some ⟨1, "run", "", 5, some 100, "daily", true⟩ := by
  have hw := (C1_daily_streak_rule ⟨[⟨1, "run", "", 4, some 99, "daily", true⟩], []⟩ 1 100 ""
      ⟨1, "run", "", 4, some 99, "daily", true⟩ rfl rfl).2.1 rfl
  exact hw

/-- Witness for C3: a same-day duplicate is rejected with the store unchanged,
and a fresh habit completed then repeated gains exactly one log entry. -/
theorem C3_witness :
    complete_habit ⟨[⟨1, "run", "", 4, some 100, "daily", true⟩], []⟩ 1 100 "a" =
      (false, ⟨[⟨1, "run", "", 4, some 100, "daily", true⟩], []⟩) ∧
    ((complete_habit ⟨[⟨2, "read", "", 0, none, "daily", true⟩], []⟩ 2 100 "a").1 = true ∧
     (complete_habit ⟨[⟨2, "read", "", 0, none, "daily", true⟩], []⟩ 2 100 "a").2.habit_log.length = 1 ∧
     complete_habit (complete_habit ⟨[⟨2, "read", "", 0, none, "daily", true⟩], []⟩ 2 100 "a").2 2 100 "b" =
       (false, (complete_habit ⟨[⟨2, "read", "", 0, none, "daily", true⟩], []⟩ 2 100 "a").2)) := by
  constructor
  · exact (C3_duplicate_same_day_rejected ⟨[⟨1, "run", "", 4, some 100, "daily", true⟩], []⟩
      1 100 "a" "b" ⟨1, "run", "", 4, some 100, "daily", true⟩ rfl rfl rfl).1
  · exact (C3_duplicate_same_day_rejected ⟨[⟨2, "run", "", 4, some 100, "daily", true⟩], []⟩
      2 100 "a" "b" ⟨2, "run", "", 4, some 100, "daily", true⟩ rfl rfl rfl).2.2
      ⟨[⟨2, "read", "", 0, none, "daily", true⟩], []⟩ ⟨2, "read", "", 0, none, "daily", true⟩ rfl rfl (Or.inl rfl)

/-- Witness for C6: a weekly habit already completed today is accepted again,
its log grows, and its streak stays 7. -/
theorem C6_witness :
    (complete_habit ⟨[⟨3, "review", "", 7, some 100, "weekly", true⟩], []⟩ 3 100 "").1 = true ∧
    (complete_habit ⟨[⟨3, "review", "", 7, some 100, "weekly", true⟩], []⟩ 3 100 "").2.habit_log =
      [] ++ [⟨3, 100, ""⟩] ∧
    findHabit (complete_habit ⟨[⟨3, "review", "", 7, some 100, "weekly", true⟩], []⟩ 3 100 "").2 3 =
      some ⟨3, "review", "", 7, some 100, "weekly", true⟩ := by
  exact C6_weekly_monthly_refresh ⟨[⟨3, "review", "", 7, some 100, "weekly", true⟩], []⟩ 3 100 ""
    ⟨3, "review", "", 7, some 100, "weekly", true⟩ rfl (Or.inl rfl)

/-- Witness for C10: habit with last_completed three days in the future is
accepted, logged, and its row untouched. -/
theorem C10_witness :
    (complete_habit ⟨[⟨1, "run", "", 4, some 103, "daily", true⟩], []⟩ 1 100 "").1 = true ∧
    (complete_habit ⟨[⟨1, "run", "", 4, some 103, "daily", true⟩], []⟩ 1 100 "").2.habits =
      [⟨1, "run", "", 4, some 103, "daily", true⟩] ∧
    (complete_habit ⟨[⟨1, "run", "", 4, some 103, "daily", true⟩], []⟩ 1 100 "").2.habit_log =
      [] ++ [⟨1, 100, ""⟩] := by
  exact C10_future_last_completed ⟨[⟨1, "run", "", 4, some 103, "daily", true⟩], []⟩ 1 100 ""
    ⟨1, "run", "", 4, some 103, "daily", true⟩ 103 rfl rfl rfl (by omega)

end EFCoach


namespace EFCoach

/-- The minute-duration test of the gap finder over instants in seconds. -/
theorem durationGE_iff (a b m : Int) :
    (((a - b : Int) : ℚ) / 60 ≥ (m : ℚ)) ↔ m * 60 ≤ a - b := by
  rw [ge_iff_le, le_div_iff₀ (by norm_num : (0:ℚ) < 60)]
  constructor
  · intro hq; exact_mod_cast hq
  · intro hq; exact_mod_cast hq

/-- With a positive minimum, every leading gap has positive duration. -/
theorem leadingGap_pos (events : List BusyInterval) (now m : Int) (hm : 1 ≤ m) :
    ∀ o ∈ leadingGap events now m, (0 : ℚ) < o.duration ∧ o.start < o.stop := by
  intro o ho
  cases events with
  | nil => simp [leadingGap] at ho
  | cons e rest =>
    rw [leadingGap] at ho
    by_cases h1 : e.start > now
    · rw [if_pos h1] at ho
      by_cases h2 : ((e.start - now : Int) : ℚ) / 60 ≥ (m : ℚ)
      · rw [if_pos h2] at ho
        simp only [List.mem_singleton] at ho
        subst ho
        have hm' : (1 : ℚ) ≤ (m : ℚ) := by exact_mod_cast hm
        exact ⟨by simp only; linarith [ge_iff_le.mp h2], h1⟩
      · rw [if_neg h2] at ho
        simp at ho
    · rw [if_neg h1] at ho
      simp at ho

/-- With a positive minimum, every interior gap has positive duration. -/
theorem interiorGaps_pos (m : Int) (hm : 1 ≤ m) :
    ∀ events : List BusyInterval, ∀ o ∈ interiorGaps m events,
      (0 : ℚ) < o.duration ∧ o.start < o.stop := by
  intro events
  induction events with
  | nil => intro o ho; simp [interiorGaps] at ho
  | cons e1 rest ih =>
    cases rest with
    | nil => intro o ho; simp [interiorGaps] at ho
    | cons e2 rest2 =>
      intro o ho
      rw [interiorGaps] at ho
      rcases List.mem_append.mp ho with hg | hrec
      · by_cases h2 : ((e2.start - e1.stop : Int) : ℚ) / 60 ≥ (m : ℚ)
        · rw [if_pos h2] at hg
          simp only [List.mem_singleton] at hg
          subst hg
          have hm' : (1 : ℚ) ≤ (m : ℚ) := by exact_mod_cast hm
          have hdiff : m * 60 ≤ e2.start - e1.stop := (durationGE_iff _ _ _).mp h2
          refine ⟨show (0:ℚ) < ((e2.start - e1.stop : Int) : ℚ) / 60 from ?_,
            show e1.stop < e2.start by omega⟩
          linarith [ge_iff_le.mp h2, hm']
        · rw [if_neg h2] at hg
          simp at hg
      · exact ih o hrec

end EFCoach

namespace EFCoach

/-- C4: for a non-empty event list whose first interval starts strictly after
now, the leading gap from now to the first start is emitted if and only if its
duration in minutes reaches min_minutes; when emitted it is the first
opportunity, has no preceding label, and its following label is the first
interval's summary. -/
theorem C4_leading_gap (e : BusyInterval) (rest : List BusyInterval)
    (now min_minutes : Int) (hnow : now < e.start) :
    (((e.start - now : Int) : ℚ) / 60 ≥ (min_minutes : ℚ) →
      find_focus_opportunities (e :: rest) now min_minutes =
        ⟨now, e.start, ((e.start - now : Int) : ℚ) / 60, none, some e.summary⟩
          :: interiorGaps min_minutes (e :: rest)) ∧
    (¬ (((e.start - now : Int) : ℚ) / 60 ≥ (min_minutes : ℚ)) →
      find_focus_opportunities (e :: rest) now min_minutes =
        interiorGaps min_minutes (e :: rest)) := by
  constructor
  · intro hdur
    rw [find_focus_opportunities, leadingGap, if_pos hnow, if_pos hdur]
    rfl
  · intro hdur
    rw [find_focus_opportunities, leadingGap, if_pos hnow, if_neg hdur]
    rfl

/-- Witness for C4: a single event two hours away with min_minutes = 120 yields
exactly the leading gap labelled by that event. -/
theorem C4_witness :
    find_focus_opportunities [⟨7200, 10800, "standup", ""⟩] 0 120 =
      [⟨0, 7200, 120, none, some "standup"⟩] := by
  have hw := (C4_leading_gap ⟨7200, 10800, "standup", ""⟩ [] 0 120 (by norm_num)).1
    (by norm_num)
  rw [hw, show interiorGaps 120 [(⟨7200, 10800, "standup", ""⟩ : BusyInterval)] = [] from rfl]
  norm_num

/-- C5 counterexample: with min_minutes = 0 (the claim quantifies over every
min_minutes), an adjacent pair with end_1 = start_2 does emit a gap, and that
gap has zero duration — refuting both parts of the claim as stated. -/
theorem C5_counterexample :
    find_focus_opportunities [⟨0, 6000, "mtg a", ""⟩, ⟨6000, 12000, "mtg b", ""⟩] 0 0 =
      [⟨6000, 6000, 0, some "mtg a", some "mtg b"⟩] ∧
    ¬ ((0 : ℚ) < (⟨6000, 6000, 0, some "mtg a", some "mtg b"⟩ : Opportunity).duration) := by
  constructor
  · rw [find_focus_opportunities, leadingGap, if_neg (by norm_num)]
    rw [interiorGaps, if_pos (by norm_num),
      show interiorGaps 0 [(⟨6000, 12000, "mtg b", ""⟩ : BusyInterval)] = [] from rfl]
    norm_num
  · norm_num

/-- C5 (amended): for every min_minutes ≥ 1, every emitted gap has positive
duration and a start strictly before its end, and consequently no adjacent
pair with end_1 ≥ start_2 has a gap emitted for it. -/
theorem C5_no_gap_for_overlapping_pairs (events : List BusyInterval) (now m : Int)
    (hm : 1 ≤ m) :
    (∀ o ∈ find_focus_opportunities events now m,
      (0 : ℚ) < o.duration ∧ o.start < o.stop) ∧
    (∀ e1 e2 : BusyInterval, List.IsInfix [e1, e2] events → e2.start ≤ e1.stop →
      ∀ o ∈ find_focus_opportunities events now m,
        ¬ (o.start = e1.stop ∧ o.stop = e2.start)) := by
  have hmain : ∀ o ∈ find_focus_opportunities events now m,
      (0 : ℚ) < o.duration ∧ o.start < o.stop := by
    intro o ho
    rcases List.mem_append.mp ho with h1 | h2
    · exact leadingGap_pos events now m hm o h1
    · exact interiorGaps_pos m hm events o h2
  refine ⟨hmain, ?_⟩
  intro e1 e2 _ hle o ho hco
  have hlt := (hmain o ho).2
  rw [hco.1, hco.2] at hlt
  omega

/-- Witness for C5: the amended theorem applied at a concrete two-event
calendar whose interior gap is emitted. -/
theorem C5_witness :
    (0 : ℚ) < (⟨3600, 10800, 120, some "a", some "b"⟩ : Opportunity).duration ∧
    (⟨3600, 10800, 120, some "a", some "b"⟩ : Opportunity).start <
      (⟨3600, 10800, 120, some "a", some "b"⟩ : Opportunity).stop := by
  have hmem : (⟨3600, 10800, 120, some "a", some "b"⟩ : Opportunity) ∈
      find_focus_opportunities [⟨0, 3600, "a", ""⟩, ⟨10800, 14400, "b", ""⟩] 0 120 := by
    rw [find_focus_opportunities, leadingGap, if_neg (by norm_num)]
    rw [interiorGaps, if_pos (by norm_num),
      show interiorGaps 120 [(⟨10800, 14400, "b", ""⟩ : BusyInterval)] = [] from rfl]
    norm_num
  exact (C5_no_gap_for_overlapping_pairs
    [⟨0, 3600, "a", ""⟩, ⟨10800, 14400, "b", ""⟩] 0 120 (by norm_num)).1 _ hmem

end EFCoach

namespace EFCoach

/-- C2: the proposal records the truncated duration, and the suggested timer
follows the tiered policy with first match winning: ≥ 240 deep work; 180–239
pomodoros; 120–179 focus block; otherwise the (duration − 15)-minute focus
session string, which is non-positive when duration − 15 ≤ 0. -/
theorem C2_tier_policy (opportunity : Opportunity) (task_name : Option String)
    (energy : Option Int) :
    (propose_focus_session opportunity task_name energy).duration_minutes =
      ratTrunc opportunity.duration ∧
    (240 ≤ ratTrunc opportunity.duration →
      (propose_focus_session opportunity task_name energy).suggested_timer =
        "120 min (deep work block)") ∧
    (180 ≤ ratTrunc opportunity.duration → ratTrunc opportunity.duration < 240 →
      (propose_focus_session opportunity task_name energy).suggested_timer =
        "90 min (3 pomodoros + long break)") ∧
    (120 ≤ ratTrunc opportunity.duration → ratTrunc opportunity.duration < 180 →
      (propose_focus_session opportunity task_name energy).suggested_timer =
        "90 min (focus block)") ∧
    (ratTrunc opportunity.duration < 120 →
      (propose_focus_session opportunity task_name energy).suggested_timer =
        toString (ratTrunc opportunity.duration - 15) ++ " min (focus session)") := by
  refine ⟨rfl, ?_, ?_, ?_, ?_⟩
  · intro h1
    show (if ratTrunc opportunity.duration ≥ 240 then "120 min (deep work block)"
      else if ratTrunc opportunity.duration ≥ 180 then "90 min (3 pomodoros + long break)"
      else if ratTrunc opportunity.duration ≥ 120 then "90 min (focus block)"
      else toString (ratTrunc opportunity.duration - 15) ++ " min (focus session)") = _
    rw [if_pos (by omega)]
  · intro h1 h2
    show (if ratTrunc opportunity.duration ≥ 240 then "120 min (deep work block)"
      else if ratTrunc opportunity.duration ≥ 180 then "90 min (3 pomodoros + long break)"
      else if ratTrunc opportunity.duration ≥ 120 then "90 min (focus block)"
      else toString (ratTrunc opportunity.duration - 15) ++ " min (focus session)") = _
    rw [if_neg (by omega), if_pos (by omega)]
  · intro h1 h2
    show (if ratTrunc opportunity.duration ≥ 240 then "120 min (deep work block)"
      else if ratTrunc opportunity.duration ≥ 180 then "90 min (3 pomodoros + long break)"
      else if ratTrunc opportunity.duration ≥ 120 then "90 min (focus block)"
      else toString (ratTrunc opportunity.duration - 15) ++ " min (focus session)") = _
    rw [if_neg (by omega), if_neg (by omega), if_pos (by omega)]
  · intro h1
    show (if ratTrunc opportunity.duration ≥ 240 then "120 min (deep work block)"
      else if ratTrunc opportunity.duration ≥ 180 then "90 min (3 pomodoros + long break)"
      else if ratTrunc opportunity.duration ≥ 120 then "90 min (focus block)"
      else toString (ratTrunc opportunity.duration - 15) ++ " min (focus session)") = _
    rw [if_neg (by omega), if_neg (by omega), if_neg (by omega)]

/-- Truncation of an integral rational is the integer itself. -/
theorem ratTrunc_int (n : Int) : ratTrunc (n : ℚ) = n := by
  rw [ratTrunc]
  by_cases h : (0 : ℚ) ≤ (n : ℚ)
  · rw [if_pos h, Int.floor_intCast]
  · rw [if_neg h, Int.ceil_intCast]

/-- Witness for C2 at the spec's boundary examples: duration 240 gets the deep
work tier, duration 239 the pomodoro tier. -/
theorem C2_witness :
    (propose_focus_session ⟨0, 14400, 240, none, none⟩ none none).suggested_timer =
      "120 min (deep work block)" ∧
    (propose_focus_session ⟨0, 14340, 239, none, none⟩ none none).suggested_timer =
      "90 min (3 pomodoros + long break)" := by
  have h240 : ratTrunc ((240 : Int) : ℚ) = 240 := ratTrunc_int 240
  have h239 : ratTrunc ((239 : Int) : ℚ) = 239 := ratTrunc_int 239
  constructor
  · exact (C2_tier_policy ⟨0, 14400, 240, none, none⟩ none none).2.1
      (by rw [show ((⟨0, 14400, 240, none, none⟩ : Opportunity)).duration = ((240 : Int) : ℚ) by norm_num, h240])
  · exact (C2_tier_policy ⟨0, 14340, 239, none, none⟩ none none).2.2.1
      (by rw [show ((⟨0, 14340, 239, none, none⟩ : Opportunity)).duration = ((239 : Int) : ℚ) by norm_num, h239]; norm_num)
      (by rw [show ((⟨0, 14340, 239, none, none⟩ : Opportunity)).duration = ((239 : Int) : ℚ) by norm_num, h239]; norm_num)

end EFCoach

namespace EFCoach

/-- C9: the proposal's duration_minutes is the gap duration truncated toward
zero (floor above zero, ceiling below), so a 239.9-minute gap is recorded as
239 minutes and classified in the 180–239 pomodoro tier rather than the ≥ 240
tier. -/
theorem C9_truncation (opportunity : Opportunity) (task_name : Option String)
    (energy : Option Int) :
    (0 ≤ opportunity.duration →
      ((propose_focus_session opportunity task_name energy).duration_minutes : ℚ) ≤
        opportunity.duration ∧
      opportunity.duration <
        ((propose_focus_session opportunity task_name energy).duration_minutes : ℚ) + 1) ∧
    (opportunity.duration < 0 →
      opportunity.duration ≤
        ((propose_focus_session opportunity task_name energy).duration_minutes : ℚ) ∧
      ((propose_focus_session opportunity task_name energy).duration_minutes : ℚ) - 1 <
        opportunity.duration) ∧
    (opportunity.duration = 2399 / 10 →
      (propose_focus_session opportunity task_name energy).duration_minutes = 239 ∧
      (propose_focus_session opportunity task_name energy).suggested_timer =
        "90 min (3 pomodoros + long break)") := by
  have hdm : (propose_focus_session opportunity task_name energy).duration_minutes =
      ratTrunc opportunity.duration := rfl
  refine ⟨?_, ?_, ?_⟩
  · intro h0
    rw [hdm, ratTrunc, if_pos h0]
    exact ⟨Int.floor_le _, Int.lt_floor_add_one _⟩
  · intro h0
    rw [hdm, ratTrunc, if_neg (not_le.mpr h0)]
    refine ⟨Int.le_ceil _, ?_⟩
    have := Int.ceil_lt_add_one opportunity.duration
    linarith
  · intro hq
    have h239 : ratTrunc opportunity.duration = 239 := by
      rw [ratTrunc, hq, if_pos (by norm_num)]
      norm_num
    refine ⟨by rw [hdm, h239], ?_⟩
    show (if ratTrunc opportunity.duration ≥ 240 then "120 min (deep work block)"
      else if ratTrunc opportunity.duration ≥ 180 then "90 min (3 pomodoros + long break)"
      else if ratTrunc opportunity.duration ≥ 120 then "90 min (focus block)"
      else toString (ratTrunc opportunity.duration - 15) ++ " min (focus session)") = _
    rw [h239, if_neg (by norm_num), if_pos (by norm_num)]

/-- Witness for C9: a 239.9-minute opportunity is truncated to 239 and gets the
pomodoro tier. -/
theorem C9_witness :
    (propose_focus_session ⟨0, 14394, 2399 / 10, none, none⟩ none none).duration_minutes =
      239 ∧
    (propose_focus_session ⟨0, 14394, 2399 / 10, none, none⟩ none none).suggested_timer =
      "90 min (3 pomodoros + long break)" :=
  (C9_truncation ⟨0, 14394, 2399 / 10, none, none⟩ none none).2.2 rfl

/-- C8: each failure outcome of the calendar provider call — non-zero exit,
timeout, or parse failure — yields an empty interval list, and downstream gap
finding on that result emits no opportunities. -/
theorem C8_provider_failures_absorbed :
    ∀ (now hours_ahead m : Int),
      get_calendar_events .nonzeroExit now hours_ahead = [] ∧
      get_calendar_events .timeout now hours_ahead = [] ∧
      get_calendar_events .parseFailure now hours_ahead = [] ∧
      find_focus_opportunities_src .nonzeroExit now m = [] ∧
      find_focus_opportunities_src .timeout now m = [] ∧
      find_focus_opportunities_src .parseFailure now m = [] := by
  intro now hours_ahead m
  exact ⟨rfl, rfl, rfl, rfl, rfl, rfl⟩

/-- C7: the reminder message is a pure function of days_since and the streak:
null days_since gives the first-step tier; days_since 1 gives the celebratory
tier when the streak exceeds 1 and the plain tier otherwise; 2 the no-worries
tier; 3–7 the jump-back-in tier; above 7 the waiting-for-you tier; identical
inputs give identical output. -/
theorem C7_reminder_tiers (name : String) (streak : Int) :
    (reminder_message name streak none =
      "Ready to start \x27" ++ name ++ "\x27? First step is the hardest!") ∧
    (1 < streak → reminder_message name streak (some 1) =
      "\x27" ++ name ++ "\x27 - keep that " ++ toString streak ++ "-day streak going! 🔥") ∧
    (streak ≤ 1 → reminder_message name streak (some 1) =
      "Time for \x27" ++ name ++ "\x27 - you\x27ve got this!") ∧
    (reminder_message name streak (some 2) =
      "\x27" ++ name ++ "\x27 - no worries, just pick it back up when ready.") ∧
    (∀ d : Int, 3 ≤ d → d ≤ 7 → reminder_message name streak (some d) =
      "\x27" ++ name ++ "\x27 - when you\x27re ready to jump back in.") ∧
    (∀ d : Int, 7 < d → reminder_message name streak (some d) =
      "\x27" ++ name ++ "\x27 - waiting for you when inspiration strikes.") ∧
    (∀ d : Option Int, reminder_message name streak d = reminder_message name streak d) := by
  refine ⟨rfl, ?_, ?_, ?_, ?_, ?_, fun d => rfl⟩
  · intro h
    simp [reminder_message, h]
  · intro h
    simp [reminder_message, show ¬ streak > 1 by omega]
  · simp [reminder_message]
  · intro d h3 h7
    simp [reminder_message, show ¬ d = 1 by omega, show ¬ d = 2 by omega,
      show d ≤ 7 from h7]
  · intro d h7
    simp [reminder_message, show ¬ d = 1 by omega, show ¬ d = 2 by omega,
      show ¬ d ≤ 7 by omega]

/-- Witness for C7: days_since 1 with streak 5 is celebratory; days_since 10
is the waiting tier. -/
theorem C7_witness :
    reminder_message "exercise" 5 (some 1) =
      "\x27exercise\x27 - keep that 5-day streak going! 🔥" ∧
    reminder_message "exercise" 5 (some 10) =
      "\x27exercise\x27 - waiting for you when inspiration strikes." := by
  constructor
  · have hw := (C7_reminder_tiers "exercise" 5).2.1 (by norm_num)
    simpa using hw
  · have hw := (C7_reminder_tiers "exercise" 5).2.2.2.2.2.1 10 (by norm_num)
    simpa using hw

end EFCoach
